import Mathlib

/-!
Verification of the v20170831 agent-pool-only API validators
(`pkg/api/agentPoolOnlyApi/v20170831/validate.go`).

The Go code is embedded shallowly:

* `error` return values become `GoResult` (`ok` for a nil error, `err` for a
  returned error message, `crash` for a Go runtime panic such as an
  out-of-range index or a failed type assertion);
* the dynamically typed value carried by a field-constraint violation
  (`err.Value()`, an `interface` value) becomes the closed variant `GoValue`;
* external collaborators (the field-constraint engine `validator.Struct`,
  the DNS-prefix check `common.ValidateDNSPrefix`, and the resource-id
  decomposer `common.GetVNETSubnetIDComponents`) are parameters of the
  functions that call them, with the interfaces the spec gives them.
-/

/-- Outcome of a Go function returning `error`: `ok` is a nil error,
`err` a non-nil error carrying its message, `crash` a runtime panic. -/
inductive GoResult where
  | ok : GoResult
  | err : String → GoResult
  | crash : String → GoResult
deriving DecidableEq, Repr

/-- The dynamically typed value of a constraint violation (`err.Value()`).
`vint` is a Go `int`, `vstr` a Go `string`, `vother` any other dynamic
type (on which both `.(int)` and `.(string)` assertions fail). -/
inductive GoValue where
  | vint : Int → GoValue
  | vstr : String → GoValue
  | vother : GoValue
deriving DecidableEq, Repr

/-- One element of the field-constraint engine output
(`validator.FieldError`): its namespace path and its offending value. -/
structure ConstraintViolation where
  Namespace : String
  Value : GoValue
deriving DecidableEq, Repr

/-- Modelled from the spec: `MinAgentCount`, a named constant of the package
(its defining file is not under `src/`); the spec only requires it to be a
visible configuration constant, so a representative value is used. -/
def MinAgentCount : Nat := 1

/-- Modelled from the spec: `MaxAgentCount`, a named constant of the package
(its defining file is not under `src/`). -/
def MaxAgentCount : Nat := 100

/-- Modelled from the spec: `MinDiskSizeGB`, a named constant of the package
(its defining file is not under `src/`). -/
def MinDiskSizeGB : Nat := 1

/-- Modelled from the spec: `MaxDiskSizeGB`, a named constant of the package
(its defining file is not under `src/`). -/
def MaxDiskSizeGB : Nat := 1023

/-- Modelled from the spec: the sentinel string identifying the managed-disks
storage profile (its defining file is not under `src/`). -/
def ManagedDisks : String := "ManagedDisks"

/-- Modelled from the spec: Go `%+v` rendering of one violation, abstracted
as a deterministic rendering of its namespace and value. -/
def GoValue.render : GoValue → String
  | .vint n => toString n
  | .vstr s => s
  | .vother => "<value>"

/-- Modelled from the spec: Go `%+v` rendering of the full violation list. -/
def renderViolations (e : List ConstraintViolation) : String :=
  String.intercalate " " (e.map (fun v => v.Namespace ++ ":" ++ v.Value.render))

/-- Go `strings.HasPrefix s pre`, embedded structurally over the character
lists of the two strings. -/
def goHasPrefix (s pre : String) : Bool :=
  pre.data.isPrefixOf s.data

/-- Go `strings.HasSuffix s suf`, embedded structurally over the character
lists of the two strings. -/
def goHasSuffix (s suf : String) : Bool :=
  suf.data.isSuffixOf s.data

/-- The four namespaces matched exactly by the first `switch` of
`handleValidationErrors`. -/
def fixedNamespaces : List String :=
  ["Properties.ServicePrincipalProfile.ClientID",
   "Properties.ServicePrincipalProfile.Secret",
   "Properties.WindowsProfile.AdminUsername",
   "Properties.WindowsProfile.AdminPassword"]

/-- Message of the `.Count` branch of `handleValidationErrors`. -/
def countRangeMsg : String :=
  "AgentPoolProfile count needs to be in the range [" ++ toString MinAgentCount
    ++ "," ++ toString MaxAgentCount ++ "]"

/-- Message of the `.OSDiskSizeGB` branch of `handleValidationErrors`. -/
def diskSizeMsg (n : Int) : String :=
  "Invalid os disk size of " ++ toString n ++ " specified.  The range of valid values are ["
    ++ toString MinDiskSizeGB ++ ", " ++ toString MaxDiskSizeGB ++ "]"

/-- Message of the `.StorageProfile` branch of `handleValidationErrors`. -/
def storageProfileMsg (s : String) : String :=
  "Unknown storageProfile \x27" ++ s ++ "\x27. Must specify " ++ ManagedDisks

/-- The final catch-all message of `handleValidationErrors`. -/
def uncaughtMsg (ns : String) (e : List ConstraintViolation) : String :=
  "Namespace " ++ ns ++ " is not caught, " ++ renderViolations e

/-- `handleValidationErrors` from `validate.go`: looks only at `e[0]`
(crashing on an empty list, as Go indexing would), matches its namespace
against the fixed set, then against the agent-pool-profile suffixes; the
`.OSDiskSizeGB` and `.StorageProfile` branches perform unchecked Go type
assertions (`err.Value().(int)` / `err.Value().(string)`), which panic when
the dynamic type differs. -/
def handleValidationErrors : List ConstraintViolation → GoResult
  | [] => .crash "index out of range"
  | v :: rest =>
    let ns := v.Namespace
    if ns ∈ fixedNamespaces then
      .err ("missing " ++ ns)
    else if goHasPrefix ns "Properties.AgentPoolProfiles" then
      if goHasSuffix ns ".Name" || goHasSuffix ns "VMSize" then
        .err ("missing " ++ ns)
      else if goHasSuffix ns ".Count" then
        .err countRangeMsg
      else if goHasSuffix ns ".OSDiskSizeGB" then
        match v.Value with
        | .vint n => .err (diskSizeMsg n)
        | _ => .crash "interface conversion"
      else if goHasSuffix ns ".StorageProfile" then
        match v.Value with
        | .vstr s => .err (storageProfileMsg s)
        | _ => .crash "interface conversion"
      else
        .err (uncaughtMsg ns (v :: rest))
    else
      .err (uncaughtMsg ns (v :: rest))

/-- One agent pool profile; only the fields this validator reads. -/
structure AgentPoolProfile where
  Name : String
  VnetSubnetID : String
deriving DecidableEq, Repr

/-- Lowercase ASCII letter, the `[a-z]` class of the pool-name regex. -/
def isLowerAZ (c : Char) : Bool := 'a' ≤ c && c ≤ 'z'

/-- ASCII digit, the `[0-9]` class of the pool-name regex. -/
def isDigit09 (c : Char) : Bool := '0' ≤ c && c ≤ '9'

/-- Whole-string match of the compiled pool-name regex
`^([a-z][a-z0-9]\x7b0,11\x7d)$`: `FindStringSubmatch` returns the
two-element slice (whole match plus the one capture group) exactly when the
whole string matches. -/
def poolNameRegexMatches (s : String) : Bool :=
  match s.data with
  | [] => false
  | c :: cs =>
    isLowerAZ c && decide (cs.length ≤ 11)
      && cs.all (fun d => isLowerAZ d || isDigit09 d)

/-- Rejection message of `validatePoolName`. -/
def poolNameErrMsg (poolName : String) : String :=
  "pool name \x27" ++ poolName
    ++ "\x27 is invalid. A pool name must start with a lowercase letter, have max length of 12, and only have characters a-z0-9"

/-- `validatePoolName` from `validate.go` (the regex literal always
compiles, so the `regexp.Compile` error path is dead). -/
def validatePoolName (poolName : String) : GoResult :=
  if poolNameRegexMatches poolName then .ok
  else .err (poolNameErrMsg poolName)

/-- `AgentPoolProfile.Validate` from `validate.go`. -/
def AgentPoolProfile.Validate (a : AgentPoolProfile) : GoResult :=
  validatePoolName a.Name

/-- Rejection message of `validateUniqueProfileNames`. -/
def dupNameMsg (name : String) : String :=
  "profile name \x27" ++ name
    ++ "\x27 already exists, profile names must be unique across pools"

/-- The loop of `validateUniqueProfileNames`: `profileNames` is the set of
names seen so far (Go `map[string]bool` used as a set). -/
def validateUniqueAux (seen : List String) : List AgentPoolProfile → GoResult
  | [] => .ok
  | p :: ps =>
    if p.Name ∈ seen then .err (dupNameMsg p.Name)
    else validateUniqueAux (p.Name :: seen) ps

/-- `validateUniqueProfileNames` from `validate.go`. -/
def validateUniqueProfileNames (profiles : List AgentPoolProfile) : GoResult :=
  validateUniqueAux [] profiles

/-- One SSH public key (`PublicKeys` entry). -/
structure SSHPublicKey where
  KeyData : String
deriving DecidableEq, Repr

/-- The `SSH` sub-object of a Linux profile. -/
structure SSHConfiguration where
  PublicKeys : List SSHPublicKey
deriving DecidableEq, Repr

/-- The Linux profile; only the fields this validator reads. -/
structure LinuxProfile where
  SSH : SSHConfiguration
deriving DecidableEq, Repr

/-- Message of `LinuxProfile.Validate` for an empty key-data field. -/
def emptyKeyDataMsg : String :=
  "KeyData in LinuxProfile.SSH.PublicKeys cannot be empty string"

/-- `LinuxProfile.Validate` from `validate.go`: indexes `PublicKeys[0]`
unconditionally (a Go runtime panic when the slice is empty) and then runs
the `required` check of the validator library, which for a string fails
exactly on the empty string. -/
def LinuxProfile.Validate (l : LinuxProfile) : GoResult :=
  match l.SSH.PublicKeys with
  | [] => .crash "index out of range"
  | k :: _ => if k.KeyData = "" then .err emptyKeyDataMsg else .ok

/-- The root configuration object; only the fields this validator reads. -/
structure Properties where
  DNSPrefix : String
  AgentPoolProfiles : List AgentPoolProfile
  LinuxProfile : Option LinuxProfile
deriving DecidableEq, Repr

/-- Modelled from the spec: `AgentPoolProfile.IsCustomVNET` lives in this
package's types file, which is not under `src/`; the spec defines a custom
VNET pool as one with a non-empty `vnetSubnetID`. -/
def AgentPoolProfile.IsCustomVNET (a : AgentPoolProfile) : Bool :=
  a.VnetSubnetID != ""

/-- The mixed-configuration rejection message of `validateVNET`. -/
def mixedVNETMsg : String :=
  "Multiple VNET Subnet configurations specified.  Each agent pool profile must all specify a custom VNET Subnet, or none at all"

/-- The classification loop of `validateVNET`: the accumulator carries
(`customVNETCount`, `isCustomVNET`); inside the guarded branch the source
re-reads `agentPool.IsCustomVNET()` to set the flag. -/
def vnetScanAux (acc : Nat × Bool) : List AgentPoolProfile → Nat × Bool
  | [] => acc
  | p :: ps =>
    vnetScanAux (if p.IsCustomVNET then (acc.1 + 1, p.IsCustomVNET) else acc) ps

/-- Modelled from the spec: the Resource-Identifier Decomposer
(`common.GetVNETSubnetIDComponents`, not under `src/`) is an external
collaborator with interface
`decompose(id) -> (subscriptionID, resourceGroup, networkName, extra, error)`;
`validateVNET` is parameterized over it. -/
def Decomposer := String → Except String (String × String × String × String)

/-- Increment of one occurrence-count map entry
(`m[k] = m[k] + 1` on a Go map whose absent entries read as `0`). -/
def mapIncr (m : String → Nat) (k : String) : String → Nat :=
  fun x => if x = k then m k + 1 else m x

/-- The identity-agreement loop of `validateVNET`: decomposes each pool's
`vnetSubnetID`, returns the decomposer's error at the first failure, and
accumulates the three occurrence-count maps, which are never asserted. -/
def vnetPhase2 (dec : Decomposer) :
    List AgentPoolProfile → (String → Nat) → (String → Nat) → (String → Nat) → GoResult
  | [], _, _, _ => .ok
  | p :: ps, subIDMap, resourceGroupMap, agentVNETMap =>
    match dec p.VnetSubnetID with
    | .error e => .err e
    | .ok (agentSubID, agentRG, agentVNET, _) =>
      vnetPhase2 dec ps (mapIncr subIDMap agentSubID)
        (mapIncr resourceGroupMap agentRG) (mapIncr agentVNETMap agentVNET)

/-- `validateVNET` from `validate.go`. -/
def validateVNET (dec : Decomposer) (a : Properties) : GoResult :=
  let scan := vnetScanAux (0, false) a.AgentPoolProfiles
  if !(scan.1 == 0 || scan.1 == a.AgentPoolProfiles.length) then
    .err mixedVNETMsg
  else if scan.2 then
    vnetPhase2 dec a.AgentPoolProfiles (fun _ => 0) (fun _ => 0) (fun _ => 0)
  else
    .ok

/-- The per-pool loop of `Properties.Validate`: runs `f` on each element in
collection order, returning the first non-nil error. -/
def validateEach (f : AgentPoolProfile → GoResult) : List AgentPoolProfile → GoResult
  | [] => .ok
  | p :: ps =>
    match f p with
    | .ok => validateEach f ps
    | r => r

/-- `Properties.Validate` from `validate.go`, parameterized over its three
external collaborators: the field-constraint engine `fe` (`validate.Struct`,
returning `some` violation list exactly when the struct validation fails),
the DNS-prefix check `dns` (`common.ValidateDNSPrefix`, returning `some`
error message on failure), and the resource-id decomposer `dec`. -/
def Properties.Validate (fe : Properties → Option (List ConstraintViolation))
    (dns : String → Option String) (dec : Decomposer) (a : Properties) : GoResult :=
  match fe a with
  | some viols => handleValidationErrors viols
  | none =>
    match dns a.DNSPrefix with
    | some e => .err e
    | none =>
      match validateUniqueProfileNames a.AgentPoolProfiles with
      | .ok =>
        match validateEach AgentPoolProfile.Validate a.AgentPoolProfiles with
        | .ok =>
          match (match a.LinuxProfile with
                 | some lp => lp.Validate
                 | none => .ok) with
          | .ok => validateVNET dec a
          | r => r
        | r => r
      | r => r

/-- The first non-`ok` result of a stage list (`ok` when all succeed). -/
def firstNonOk : List GoResult → GoResult
  | [] => .ok
  | r :: rs =>
    match r with
    | .ok => firstNonOk rs
    | r => r

/-- Follows the spec's words (§4.5): the six validation stages, in order —
field-constraint engine classified by the error classifier, DNS-prefix
check, uniqueness validator, per-pool name validator in collection order,
Linux-profile validation when a Linux profile is present, and the VNET
consistency validator. -/
def specValidationStages (fe : Properties → Option (List ConstraintViolation))
    (dns : String → Option String) (dec : Decomposer) (a : Properties) : List GoResult :=
  [ (match fe a with
     | some viols => handleValidationErrors viols
     | none => .ok),
    (match dns a.DNSPrefix with
     | some e => .err e
     | none => .ok),
    validateUniqueProfileNames a.AgentPoolProfiles,
    firstNonOk (a.AgentPoolProfiles.map AgentPoolProfile.Validate),
    (match a.LinuxProfile with
     | some lp => lp.Validate
     | none => .ok),
    validateVNET dec a ]

/-- Follows the spec's words (§4.4 phase 2): the decomposer's error for the
first pool whose `vnetSubnetID` fails to decompose, `ok` when every pool's
identifier decomposes — with no dependence on the decomposed components. -/
def firstDecomposeFailure (dec : Decomposer) : List AgentPoolProfile → GoResult
  | [] => .ok
  | p :: ps =>
    match dec p.VnetSubnetID with
    | .error e => .err e
    | .ok _ => firstDecomposeFailure dec ps

theorem vnetScanAux_fst (ps : List AgentPoolProfile) (acc : Nat × Bool) :
    (vnetScanAux acc ps).1 = acc.1 + ps.countP (fun p => p.IsCustomVNET) := by
  induction ps generalizing acc with
  | nil => simp [vnetScanAux]
  | cons p ps ih =>
    by_cases h : p.IsCustomVNET
    · simp [vnetScanAux, h, ih, List.countP_cons]
      omega
    · simp [vnetScanAux, h, ih, List.countP_cons]

theorem vnetScanAux_snd (ps : List AgentPoolProfile) (acc : Nat × Bool) :
    (vnetScanAux acc ps).2 = (acc.2 || ps.any (fun p => p.IsCustomVNET)) := by
  induction ps generalizing acc with
  | nil => simp [vnetScanAux]
  | cons p ps ih =>
    by_cases h : p.IsCustomVNET
    · simp [vnetScanAux, h, ih]
    · simp [vnetScanAux, h, ih]

theorem vnetPhase2_eq_firstDecomposeFailure (dec : Decomposer)
    (ps : List AgentPoolProfile) (m1 m2 m3 : String → Nat) :
    vnetPhase2 dec ps m1 m2 m3 = firstDecomposeFailure dec ps := by
  induction ps generalizing m1 m2 m3 with
  | nil => rfl
  | cons p ps ih =>
    simp only [vnetPhase2, firstDecomposeFailure]
    cases dec p.VnetSubnetID with
    | error e => rfl
    | ok t =>
      obtain ⟨s1, s2, s3, s4⟩ := t
      simp [ih]

theorem validateEach_eq_firstNonOk (f : AgentPoolProfile → GoResult)
    (ps : List AgentPoolProfile) :
    validateEach f ps = firstNonOk (ps.map f) := by
  induction ps with
  | nil => rfl
  | cons p ps ih =>
    simp only [validateEach, List.map_cons, firstNonOk]
    cases f p <;> simp [ih]

theorem handleValidationErrors_ne_ok (e : List ConstraintViolation) :
    handleValidationErrors e ≠ GoResult.ok := by
  cases e with
  | nil => simp [handleValidationErrors]
  | cons v rest =>
    simp only [handleValidationErrors]
    repeat' split
    all_goals simp

/-- C7: after `validateVNET`'s classification loop, the `isCustomVNET` flag
taken from the last-seen custom pool equals the predicate
`customVNETCount > 0`, and it is true exactly when at least one pool has a
non-empty `vnetSubnetID`. -/
theorem vnetScan_flag_iff_count_pos (ps : List AgentPoolProfile) :
    (vnetScanAux (0, false) ps).2 = decide (0 < (vnetScanAux (0, false) ps).1)
    ∧ ((vnetScanAux (0, false) ps).2 = true ↔ ∃ p ∈ ps, p.VnetSubnetID ≠ "") := by
  rw [vnetScanAux_fst, vnetScanAux_snd]
  simp only [Bool.false_or, Nat.zero_add]
  have hiff : ps.any (fun p => p.IsCustomVNET) = true
      ↔ 0 < ps.countP (fun p => p.IsCustomVNET) := by
    rw [List.any_eq_true, List.countP_pos_iff]
  constructor
  · cases hb : ps.any (fun p => p.IsCustomVNET) with
    | false =>
      rw [eq_comm, decide_eq_false_iff_not]
      intro hc
      rw [← hiff] at hc
      rw [hb] at hc
      exact Bool.false_ne_true hc
    | true =>
      rw [eq_comm, decide_eq_true_eq]
      exact hiff.mp hb
  · rw [List.any_eq_true]
    simp [AgentPoolProfile.IsCustomVNET, bne_iff_ne]

/-- C10: on a `Properties` value whose agent-pool collection is empty, both
`validateUniqueProfileNames` and `validateVNET` return success: uniqueness
holds vacuously, the all-or-nothing check passes with `customVNETCount = 0`
equal to the pool count `0`, and the identity-agreement phase is skipped. -/
theorem emptyPools_validators_ok (dec : Decomposer) (a : Properties)
    (h : a.AgentPoolProfiles = []) :
    validateUniqueProfileNames a.AgentPoolProfiles = GoResult.ok
    ∧ validateVNET dec a = GoResult.ok := by
  constructor
  · rw [h]
    rfl
  · unfold validateVNET
    rw [h]
    simp [vnetScanAux]

theorem emptyPools_validators_ok_witness :
    validateUniqueProfileNames (Properties.mk "dns" [] none).AgentPoolProfiles = GoResult.ok
    ∧ validateVNET (fun _ => Except.error "boom") (Properties.mk "dns" [] none)
        = GoResult.ok :=
  emptyPools_validators_ok (fun _ => Except.error "boom") (Properties.mk "dns" [] none) rfl

/-- C8 (code bug): `LinuxProfile.Validate` indexes `SSH.PublicKeys[0]`
without a bounds check, so on an empty key list it does not fail cleanly
with a dedicated error: it crashes with a Go index-out-of-range panic. -/
theorem linuxProfile_validate_empty_keys_crashes :
    LinuxProfile.Validate (LinuxProfile.mk (SSHConfiguration.mk []))
      = GoResult.crash "index out of range" := rfl

/-- C9 (code bug): the `.OSDiskSizeGB` branch of `handleValidationErrors`
performs the unchecked Go type assertion `err.Value().(int)`, so on a
violation whose value is not an `int` it does not fail defensively with an
error: it crashes with an interface-conversion panic (the `.StorageProfile`
branch behaves the same for `err.Value().(string)`). -/
theorem handleValidationErrors_type_assertion_crashes :
    handleValidationErrors
      [ConstraintViolation.mk "Properties.AgentPoolProfiles[0].OSDiskSizeGB" GoValue.vother]
      = GoResult.crash "interface conversion"
    ∧ handleValidationErrors
        [ConstraintViolation.mk "Properties.AgentPoolProfiles[0].StorageProfile" GoValue.vother]
        = GoResult.crash "interface conversion" := by
  constructor <;> rfl

/-- C3: `Properties.Validate` runs exactly the spec's six stages in order —
field-constraint engine classified by `handleValidationErrors`, DNS-prefix
check, uniqueness validator, per-pool name validator in collection order,
Linux-profile validation only when present, VNET consistency validator —
short-circuiting at the first failing stage and returning its result
verbatim, and succeeding only when every stage succeeds. -/
theorem properties_validate_runs_spec_stages
    (fe : Properties → Option (List ConstraintViolation))
    (dns : String → Option String) (dec : Decomposer) (a : Properties) :
    Properties.Validate fe dns dec a = firstNonOk (specValidationStages fe dns dec a) := by
  unfold Properties.Validate specValidationStages
  cases hfe : fe a with
  | some viols =>
    cases hh : handleValidationErrors viols with
    | ok => exact absurd hh (handleValidationErrors_ne_ok viols)
    | err m => simp [firstNonOk, hh]
    | crash m => simp [firstNonOk, hh]
  | none =>
    cases hdns : dns a.DNSPrefix with
    | some e => simp [firstNonOk]
    | none =>
      cases hu : validateUniqueProfileNames a.AgentPoolProfiles with
      | err m => simp [firstNonOk, hu]
      | crash m => simp [firstNonOk, hu]
      | ok =>
        rw [validateEach_eq_firstNonOk]
        cases hv : firstNonOk (a.AgentPoolProfiles.map AgentPoolProfile.Validate) with
        | err m => simp [firstNonOk, hv]
        | crash m => simp [firstNonOk, hv]
        | ok =>
          cases hlp : a.LinuxProfile with
          | none =>
            cases hw : validateVNET dec a with
            | ok => simp [firstNonOk, hw]
            | err m => simp [firstNonOk, hw]
            | crash m => simp [firstNonOk, hw]
          | some lp =>
            cases hl : lp.Validate with
            | ok =>
              cases hw : validateVNET dec a with
              | ok => simp [firstNonOk, hl, hw]
              | err m => simp [firstNonOk, hl, hw]
              | crash m => simp [firstNonOk, hl, hw]
            | err m => simp [firstNonOk, hl]
            | crash m => simp [firstNonOk, hl]

theorem poolNameRegexMatches_iff (s : String) :
    poolNameRegexMatches s = true ↔
      ∃ c cs, s.data = c :: cs ∧ ('a' ≤ c ∧ c ≤ 'z') ∧ cs.length ≤ 11
        ∧ ∀ d ∈ cs, ('a' ≤ d ∧ d ≤ 'z') ∨ ('0' ≤ d ∧ d ≤ '9') := by
  unfold poolNameRegexMatches
  cases hd : s.data with
  | nil => simp
  | cons c cs =>
    simp only [Bool.and_eq_true, decide_eq_true_eq, List.all_eq_true, isLowerAZ, isDigit09,
      Bool.or_eq_true]
    constructor
    · rintro ⟨⟨h1, h2⟩, h3⟩
      exact ⟨c, cs, rfl, h1, h2, fun d hdm => by
        rcases h3 d hdm with h | h
        · exact Or.inl h
        · exact Or.inr h⟩
    · rintro ⟨c2, cs2, heq, h1, h2, h3⟩
      obtain ⟨rfl, rfl⟩ : c = c2 ∧ cs = cs2 := by
        refine ⟨?_, ?_⟩ <;> injection heq
      refine ⟨⟨⟨h1.1, h1.2⟩, h2⟩, fun d hdm => ?_⟩
      rcases h3 d hdm with h | h
      · exact Or.inl ⟨h.1, h.2⟩
      · exact Or.inr ⟨h.1, h.2⟩

/-- C4: `validatePoolName` accepts exactly the strings matching
`^[a-z][a-z0-9]\x7b0,11\x7d$` — a lowercase ASCII letter followed by at
most eleven lowercase letters or digits, so total length at most 12 — and
every rejected string produces the fixed message that names the offending
input and restates the rule. -/
theorem validatePoolName_spec (s : String) :
    (validatePoolName s = GoResult.ok ↔
      ∃ c cs, s.data = c :: cs ∧ ('a' ≤ c ∧ c ≤ 'z') ∧ cs.length ≤ 11
        ∧ ∀ d ∈ cs, ('a' ≤ d ∧ d ≤ 'z') ∨ ('0' ≤ d ∧ d ≤ '9'))
    ∧ (∀ m, validatePoolName s = GoResult.err m →
        m = poolNameErrMsg s ∧ s.data <:+: m.data) := by
  constructor
  · unfold validatePoolName
    by_cases hm : poolNameRegexMatches s
    · simp only [hm, if_true]
      simp [← poolNameRegexMatches_iff, hm]
    · simp only [hm, if_false, Bool.false_eq_true]
      rw [← poolNameRegexMatches_iff]
      simp [hm]
  · intro m hm
    unfold validatePoolName at hm
    by_cases h : poolNameRegexMatches s
    · simp [h] at hm
    · simp only [h, if_false, Bool.false_eq_true, GoResult.err.injEq] at hm
      refine ⟨hm.symm, ?_⟩
      rw [← hm]
      unfold poolNameErrMsg
      refine ⟨("pool name \x27").data,
        ("\x27 is invalid. A pool name must start with a lowercase letter, have max length of 12, and only have characters a-z0-9").data, ?_⟩
      simp [String.data_append]

theorem validatePoolName_spec_witness :
    poolNameErrMsg "Pool-1" = poolNameErrMsg "Pool-1"
    ∧ "Pool-1".data <:+: (poolNameErrMsg "Pool-1").data :=
  (validatePoolName_spec "Pool-1").2 (poolNameErrMsg "Pool-1") (by rfl)

theorem validateUniqueAux_ok_iff (ps : List AgentPoolProfile) (seen : List String) :
    validateUniqueAux seen ps = GoResult.ok ↔
      (ps.map (fun p => p.Name)).Nodup
        ∧ ∀ n ∈ ps.map (fun p => p.Name), n ∉ seen := by
  induction ps generalizing seen with
  | nil => simp [validateUniqueAux]
  | cons p ps ih =>
    simp only [validateUniqueAux, List.map_cons, List.nodup_cons, List.forall_mem_cons]
    by_cases h : p.Name ∈ seen
    · rw [if_pos h]
      refine iff_of_false (by simp) ?_
      rintro ⟨-, hcontra, -⟩
      exact hcontra h
    · rw [if_neg h, ih]
      constructor
      · rintro ⟨hnd, hall⟩
        have hmem : p.Name ∉ ps.map (fun p => p.Name) := by
          intro hmem
          exact (hall _ hmem) (List.mem_cons_self _ _)
        refine ⟨⟨hmem, hnd⟩, h, fun n hn => ?_⟩
        intro hns
        exact (hall n hn) (List.mem_cons_of_mem _ hns)
      · rintro ⟨⟨hmem, hnd⟩, -, hall⟩
        refine ⟨hnd, fun n hn => ?_⟩
        intro hns
        rcases List.mem_cons.mp hns with rfl | hns2
        · exact hmem hn
        · exact (hall n hn) hns2

theorem validateUniqueAux_err (ps : List AgentPoolProfile) (seen : List String)
    (h : ¬ ((ps.map (fun p => p.Name)).Nodup
        ∧ ∀ n ∈ ps.map (fun p => p.Name), n ∉ seen)) :
    ∃ j d, (ps.map (fun p => p.Name))[j]? = some d
      ∧ (d ∈ seen ∨ d ∈ (ps.map (fun p => p.Name)).take j)
      ∧ ((ps.map (fun p => p.Name)).take j).Nodup
      ∧ (∀ n ∈ (ps.map (fun p => p.Name)).take j, n ∉ seen)
      ∧ validateUniqueAux seen ps = GoResult.err (dupNameMsg d) := by
  induction ps generalizing seen with
  | nil => simp at h
  | cons p ps ih =>
    by_cases hp : p.Name ∈ seen
    · exact ⟨0, p.Name, by simp, Or.inl hp, by simp, by simp,
        by simp [validateUniqueAux, hp]⟩
    · have h2 : ¬ ((ps.map (fun p => p.Name)).Nodup
          ∧ ∀ n ∈ ps.map (fun p => p.Name), n ∉ (p.Name :: seen)) := by
        rintro ⟨hnd, hall⟩
        apply h
        constructor
        · rw [List.map_cons, List.nodup_cons]
          refine ⟨fun hmem => ?_, hnd⟩
          exact (hall _ hmem) (List.mem_cons_self _ _)
        · rw [List.map_cons]
          intro n hn
          rcases List.mem_cons.mp hn with rfl | hn2
          · exact hp
          · intro hns
            exact (hall n hn2) (List.mem_cons_of_mem _ hns)
      obtain ⟨j, d, hget, hmem, hnd, hdisj, hres⟩ := ih (p.Name :: seen) h2
      refine ⟨j + 1, d, ?_, ?_, ?_, ?_, ?_⟩
      · simpa using hget
      · rcases hmem with hseen | htake
        · rcases List.mem_cons.mp hseen with rfl | hs
          · exact Or.inr (by simp [List.take_succ_cons])
          · exact Or.inl hs
        · exact Or.inr (by simp [List.take_succ_cons, List.mem_cons, Or.inr htake])
      · rw [List.map_cons, List.take_succ_cons, List.nodup_cons]
        refine ⟨fun hmem2 => ?_, hnd⟩
        exact (hdisj _ hmem2) (List.mem_cons_self _ _)
      · rw [List.map_cons, List.take_succ_cons]
        intro n hn
        rcases List.mem_cons.mp hn with rfl | hn2
        · exact hp
        · intro hns
          exact (hdisj n hn2) (List.mem_cons_of_mem _ hns)
      · simp [validateUniqueAux, hp, hres]

/-- C5: `validateUniqueProfileNames` succeeds exactly when the pool names
are pairwise distinct; when a duplicate exists it fails naming the name at
the first position (in iteration order) that repeats an earlier name: the
prefix before that position is still duplicate-free. -/
theorem validateUniqueProfileNames_spec (ps : List AgentPoolProfile) :
    (validateUniqueProfileNames ps = GoResult.ok ↔ (ps.map (fun p => p.Name)).Nodup)
    ∧ (¬ (ps.map (fun p => p.Name)).Nodup →
        ∃ j d, (ps.map (fun p => p.Name))[j]? = some d
          ∧ d ∈ (ps.map (fun p => p.Name)).take j
          ∧ ((ps.map (fun p => p.Name)).take j).Nodup
          ∧ validateUniqueProfileNames ps = GoResult.err (dupNameMsg d)) := by
  constructor
  · rw [validateUniqueProfileNames, validateUniqueAux_ok_iff]
    simp
  · intro hnd
    obtain ⟨j, d, hget, hmem, hndt, hdisj, hres⟩ :=
      validateUniqueAux_err ps [] (by simp [hnd])
    refine ⟨j, d, hget, ?_, hndt, hres⟩
    rcases hmem with hseen | htake
    · simp at hseen
    · exact htake

theorem validateUniqueProfileNames_spec_witness :
    ¬ (([AgentPoolProfile.mk "pool1" "", AgentPoolProfile.mk "pool1" ""].map
        (fun p => p.Name)).Nodup)
    ∧ ∃ j d, (([AgentPoolProfile.mk "pool1" "", AgentPoolProfile.mk "pool1" ""].map
          (fun p => p.Name)))[j]? = some d
        ∧ d ∈ (([AgentPoolProfile.mk "pool1" "", AgentPoolProfile.mk "pool1" ""].map
            (fun p => p.Name))).take j
        ∧ ((([AgentPoolProfile.mk "pool1" "", AgentPoolProfile.mk "pool1" ""].map
            (fun p => p.Name))).take j).Nodup
        ∧ validateUniqueProfileNames
            [AgentPoolProfile.mk "pool1" "", AgentPoolProfile.mk "pool1" ""]
            = GoResult.err (dupNameMsg d) :=
  ⟨by decide,
    (validateUniqueProfileNames_spec
      [AgentPoolProfile.mk "pool1" "", AgentPoolProfile.mk "pool1" ""]).2 (by decide)⟩

theorem firstDecomposeFailure_ok (dec : Decomposer) (ps : List AgentPoolProfile)
    (h : ∀ p ∈ ps, ∃ t, dec p.VnetSubnetID = Except.ok t) :
    firstDecomposeFailure dec ps = GoResult.ok := by
  induction ps with
  | nil => rfl
  | cons p ps ih =>
    obtain ⟨t, ht⟩ := h p (List.mem_cons_self _ _)
    simp only [firstDecomposeFailure, ht]
    exact ih (fun q hq => h q (List.mem_cons_of_mem _ hq))

/-- C1 (amended): `customVNETCount` counts the pools with a non-empty
`vnetSubnetID`; `validateVNET` rejects with the single mixed-configuration
message of the source exactly when that count is neither `0` nor the pool
count; it accepts when no pool declares a custom subnet, and accepts when
every pool declares one and every identifier decomposes. -/
theorem validateVNET_allOrNothing (dec : Decomposer) (a : Properties) :
    ((vnetScanAux (0, false) a.AgentPoolProfiles).1
        = a.AgentPoolProfiles.countP (fun p => p.VnetSubnetID != ""))
    ∧ (¬ ((vnetScanAux (0, false) a.AgentPoolProfiles).1 = 0
          ∨ (vnetScanAux (0, false) a.AgentPoolProfiles).1 = a.AgentPoolProfiles.length)
        → validateVNET dec a = GoResult.err mixedVNETMsg)
    ∧ ((vnetScanAux (0, false) a.AgentPoolProfiles).1 = 0
        → validateVNET dec a = GoResult.ok)
    ∧ ((vnetScanAux (0, false) a.AgentPoolProfiles).1 = a.AgentPoolProfiles.length
        → (∀ p ∈ a.AgentPoolProfiles, ∃ t, dec p.VnetSubnetID = Except.ok t)
        → validateVNET dec a = GoResult.ok) := by
  refine ⟨?_, ?_, ?_, ?_⟩
  · rw [vnetScanAux_fst]
    simp [AgentPoolProfile.IsCustomVNET]
  · intro hne
    rcases not_or.mp hne with ⟨h1, h2⟩
    simp [validateVNET, h1, h2]
  · intro h0
    have hflag : (vnetScanAux (0, false) a.AgentPoolProfiles).2 = false := by
      rw [vnetScanAux_snd]
      rw [vnetScanAux_fst] at h0
      simp only [Nat.zero_add] at h0
      simp only [Bool.false_or, List.any_eq_false]
      intro p hp
      rcases List.countP_eq_zero.mp h0 with hall
      exact fun hc => hall p hp hc
    simp [validateVNET, h0, hflag]
  · intro hlen hdec
    cases hfl : (vnetScanAux (0, false) a.AgentPoolProfiles).2 with
    | false => simp [validateVNET, hlen, hfl]
    | true =>
      simp [validateVNET, hlen, hfl, vnetPhase2_eq_firstDecomposeFailure,
        firstDecomposeFailure_ok dec _ hdec]

theorem validateVNET_allOrNothing_witness :
    validateVNET (fun s => Except.ok (s, s, s, s))
      (Properties.mk "d" [AgentPoolProfile.mk "a" "", AgentPoolProfile.mk "b" "subnet",
        AgentPoolProfile.mk "c" ""] none)
      = GoResult.err mixedVNETMsg
    ∧ validateVNET (fun s => Except.ok (s, s, s, s))
        (Properties.mk "d" [AgentPoolProfile.mk "a" ""] none)
        = GoResult.ok
    ∧ validateVNET (fun s => Except.ok (s, s, s, s))
        (Properties.mk "d" [AgentPoolProfile.mk "a" "s1", AgentPoolProfile.mk "b" "s2"] none)
        = GoResult.ok :=
  ⟨(validateVNET_allOrNothing (fun s => Except.ok (s, s, s, s))
      (Properties.mk "d" [AgentPoolProfile.mk "a" "", AgentPoolProfile.mk "b" "subnet",
        AgentPoolProfile.mk "c" ""] none)).2.1 (by decide),
   (validateVNET_allOrNothing (fun s => Except.ok (s, s, s, s))
      (Properties.mk "d" [AgentPoolProfile.mk "a" ""] none)).2.2.1 (by decide),
   (validateVNET_allOrNothing (fun s => Except.ok (s, s, s, s))
      (Properties.mk "d" [AgentPoolProfile.mk "a" "s1", AgentPoolProfile.mk "b" "s2"] none)).2.2.2
      (by decide) (fun p _ => ⟨(p.VnetSubnetID, p.VnetSubnetID, p.VnetSubnetID,
        p.VnetSubnetID), rfl⟩)⟩

/-- C1 counterexample: on three pools of which exactly one declares a
custom subnet, `validateVNET` rejects, but its message is the source's
text, not the text the claim quotes. -/
theorem validateVNET_message_counterexample :
    validateVNET (fun _ => Except.error "unused")
      (Properties.mk "d" [AgentPoolProfile.mk "a" "", AgentPoolProfile.mk "b" "subnet",
        AgentPoolProfile.mk "c" ""] none)
      = GoResult.err mixedVNETMsg
    ∧ mixedVNETMsg
        ≠ "Multiple VNET Subnet configurations specified; each pool must specify a custom VNET Subnet, or none at all." := by
  exact ⟨by decide, by decide⟩

/-- C6: once the all-or-nothing check passes and at least one pool is
custom-VNET, `validateVNET` decomposes every pool's `vnetSubnetID` in
order, returns the decomposer's error at the first decomposition failure,
and otherwise returns success unconditionally — the accumulated occurrence
counts are never asserted, so disagreeing components cannot fail it. -/
theorem validateVNET_phase2_spec (dec : Decomposer) (a : Properties)
    (hpass : (vnetScanAux (0, false) a.AgentPoolProfiles).1 = 0
        ∨ (vnetScanAux (0, false) a.AgentPoolProfiles).1 = a.AgentPoolProfiles.length)
    (hpos : 0 < (vnetScanAux (0, false) a.AgentPoolProfiles).1) :
    validateVNET dec a = firstDecomposeFailure dec a.AgentPoolProfiles := by
  have hflag : (vnetScanAux (0, false) a.AgentPoolProfiles).2 = true := by
    rw [vnetScanAux_snd]
    rw [vnetScanAux_fst] at hpos
    simp only [Nat.zero_add] at hpos
    simp only [Bool.false_or, List.any_eq_true]
    exact List.countP_pos_iff.mp hpos
  rcases hpass with h0 | hlen
  · exact absurd h0 (by omega)
  · simp [validateVNET, hlen, hflag, vnetPhase2_eq_firstDecomposeFailure]

theorem validateVNET_phase2_spec_witness :
    ((vnetScanAux (0, false) [AgentPoolProfile.mk "a" "good",
        AgentPoolProfile.mk "b" "bad"]).1 = 0
      ∨ (vnetScanAux (0, false) [AgentPoolProfile.mk "a" "good",
          AgentPoolProfile.mk "b" "bad"]).1
        = [AgentPoolProfile.mk "a" "good", AgentPoolProfile.mk "b" "bad"].length)
    ∧ 0 < (vnetScanAux (0, false) [AgentPoolProfile.mk "a" "good",
        AgentPoolProfile.mk "b" "bad"]).1
    ∧ validateVNET
        (fun s => if s = "good" then Except.ok ("s", "r", "v", "x")
          else Except.error "malformed id")
        (Properties.mk "d" [AgentPoolProfile.mk "a" "good",
          AgentPoolProfile.mk "b" "bad"] none)
      = firstDecomposeFailure
          (fun s => if s = "good" then Except.ok ("s", "r", "v", "x")
            else Except.error "malformed id")
          [AgentPoolProfile.mk "a" "good", AgentPoolProfile.mk "b" "bad"] :=
  ⟨by decide, by decide,
    validateVNET_phase2_spec
      (fun s => if s = "good" then Except.ok ("s", "r", "v", "x")
        else Except.error "malformed id")
      (Properties.mk "d" [AgentPoolProfile.mk "a" "good",
        AgentPoolProfile.mk "b" "bad"] none)
      (by decide) (by decide)⟩

theorem data_infix_mid (a b c l : String) (h : l = a ++ b ++ c) :
    b.data <:+: l.data := by
  subst h
  exact ⟨a.data, c.data, by simp [String.data_append]⟩

/-- C2 (amended): for every non-empty violation list the classifier's
branch is chosen by the first violation alone, by the ordered policy of the
source: exact namespace match in the fixed four-element set → "missing
`<namespace>`"; else, under the agent-pool-profiles prefix, suffix `.Name`
or suffix `VMSize` — the source checks the `VMSize` suffix without a
leading dot — → "missing `<namespace>`", suffix `.Count` → a message
containing `MinAgentCount` and `MaxAgentCount`, suffix `.OSDiskSizeGB`
with an integer value → a message containing that integer and
`MinDiskSizeGB` and `MaxDiskSizeGB`, suffix `.StorageProfile` with a
string value → a message containing that string and the managed-disks
constant; any other namespace → the catch-all diagnostic containing the
raw namespace and the full violation set. -/
theorem handleValidationErrors_policy (v : ConstraintViolation)
    (rest : List ConstraintViolation) :
    (v.Namespace ∈ fixedNamespaces →
      handleValidationErrors (v :: rest) = GoResult.err ("missing " ++ v.Namespace))
    ∧ (v.Namespace ∉ fixedNamespaces →
        goHasPrefix v.Namespace "Properties.AgentPoolProfiles" = true →
        ((goHasSuffix v.Namespace ".Name" || goHasSuffix v.Namespace "VMSize") = true →
          handleValidationErrors (v :: rest) = GoResult.err ("missing " ++ v.Namespace))
        ∧ ((goHasSuffix v.Namespace ".Name" || goHasSuffix v.Namespace "VMSize") = false →
            goHasSuffix v.Namespace ".Count" = true →
            handleValidationErrors (v :: rest) = GoResult.err countRangeMsg
              ∧ (toString MinAgentCount).data <:+: countRangeMsg.data
              ∧ (toString MaxAgentCount).data <:+: countRangeMsg.data)
        ∧ ((goHasSuffix v.Namespace ".Name" || goHasSuffix v.Namespace "VMSize") = false →
            goHasSuffix v.Namespace ".Count" = false →
            goHasSuffix v.Namespace ".OSDiskSizeGB" = true →
            ∀ n, v.Value = GoValue.vint n →
              handleValidationErrors (v :: rest) = GoResult.err (diskSizeMsg n)
                ∧ (toString n).data <:+: (diskSizeMsg n).data
                ∧ (toString MinDiskSizeGB).data <:+: (diskSizeMsg n).data
                ∧ (toString MaxDiskSizeGB).data <:+: (diskSizeMsg n).data)
        ∧ ((goHasSuffix v.Namespace ".Name" || goHasSuffix v.Namespace "VMSize") = false →
            goHasSuffix v.Namespace ".Count" = false →
            goHasSuffix v.Namespace ".OSDiskSizeGB" = false →
            goHasSuffix v.Namespace ".StorageProfile" = true →
            ∀ s, v.Value = GoValue.vstr s →
              handleValidationErrors (v :: rest) = GoResult.err (storageProfileMsg s)
                ∧ s.data <:+: (storageProfileMsg s).data
                ∧ ManagedDisks.data <:+: (storageProfileMsg s).data)
        ∧ ((goHasSuffix v.Namespace ".Name" || goHasSuffix v.Namespace "VMSize") = false →
            goHasSuffix v.Namespace ".Count" = false →
            goHasSuffix v.Namespace ".OSDiskSizeGB" = false →
            goHasSuffix v.Namespace ".StorageProfile" = false →
            handleValidationErrors (v :: rest)
                = GoResult.err (uncaughtMsg v.Namespace (v :: rest))
              ∧ v.Namespace.data <:+: (uncaughtMsg v.Namespace (v :: rest)).data
              ∧ (renderViolations (v :: rest)).data
                  <:+: (uncaughtMsg v.Namespace (v :: rest)).data))
    ∧ (v.Namespace ∉ fixedNamespaces →
        goHasPrefix v.Namespace "Properties.AgentPoolProfiles" = false →
        handleValidationErrors (v :: rest)
            = GoResult.err (uncaughtMsg v.Namespace (v :: rest))
          ∧ v.Namespace.data <:+: (uncaughtMsg v.Namespace (v :: rest)).data
          ∧ (renderViolations (v :: rest)).data
              <:+: (uncaughtMsg v.Namespace (v :: rest)).data) := by
  have hns : ∀ e, v.Namespace.data <:+: (uncaughtMsg v.Namespace e).data := by
    intro e
    exact data_infix_mid "Namespace " v.Namespace
      (" is not caught, " ++ renderViolations e) _
      (by simp [uncaughtMsg, String.append_assoc])
  have hvs : ∀ e, (renderViolations e).data <:+: (uncaughtMsg v.Namespace e).data := by
    intro e
    exact data_infix_mid ("Namespace " ++ v.Namespace ++ " is not caught, ")
      (renderViolations e) "" _ (by simp [uncaughtMsg, String.append_assoc])
  refine ⟨?_, ?_, ?_⟩
  · intro hfix
    simp [handleValidationErrors, hfix]
  · intro hfix hpre
    refine ⟨?_, ?_, ?_, ?_, ?_⟩
    · intro hsuf
      simp [handleValidationErrors, hfix, hpre, hsuf]
    · intro hsuf hcount
      refine ⟨by simp [handleValidationErrors, hfix, hpre, hsuf, hcount], by decide, by decide⟩
    · intro hsuf hcount hdisk n hval
      refine ⟨by simp [handleValidationErrors, hfix, hpre, hsuf, hcount, hdisk, hval],
        ?_, ?_, ?_⟩
      · exact data_infix_mid "Invalid os disk size of " (toString n)
          (" specified.  The range of valid values are [" ++ toString MinDiskSizeGB
            ++ ", " ++ toString MaxDiskSizeGB ++ "]") _
          (by simp [diskSizeMsg, String.append_assoc])
      · exact data_infix_mid
          ("Invalid os disk size of " ++ toString n
            ++ " specified.  The range of valid values are [")
          (toString MinDiskSizeGB) (", " ++ toString MaxDiskSizeGB ++ "]") _
          (by simp [diskSizeMsg, String.append_assoc])
      · exact data_infix_mid
          ("Invalid os disk size of " ++ toString n
            ++ " specified.  The range of valid values are ["
            ++ toString MinDiskSizeGB ++ ", ")
          (toString MaxDiskSizeGB) "]" _
          (by simp [diskSizeMsg, String.append_assoc])
    · intro hsuf hcount hdisk hstore s hval
      refine ⟨by simp [handleValidationErrors, hfix, hpre, hsuf, hcount, hdisk,
          hstore, hval], ?_, ?_⟩
      · exact data_infix_mid "Unknown storageProfile \x27" s
          ("\x27. Must specify " ++ ManagedDisks) _
          (by simp [storageProfileMsg, String.append_assoc])
      · exact data_infix_mid
          ("Unknown storageProfile \x27" ++ s ++ "\x27. Must specify ")
          ManagedDisks "" _
          (by simp [storageProfileMsg, String.append_assoc])
    · intro hsuf hcount hdisk hstore
      exact ⟨by simp [handleValidationErrors, hfix, hpre, hsuf, hcount, hdisk, hstore],
        hns _, hvs _⟩
  · intro hfix hpre
    exact ⟨by simp [handleValidationErrors, hfix, hpre], hns _, hvs _⟩

theorem handleValidationErrors_policy_witness :
    handleValidationErrors
        [ConstraintViolation.mk "Properties.AgentPoolProfiles[2].Count" (GoValue.vint 200)]
        = GoResult.err countRangeMsg
    ∧ (toString MinAgentCount).data <:+: countRangeMsg.data
    ∧ (toString MaxAgentCount).data <:+: countRangeMsg.data :=
  ((handleValidationErrors_policy
      (ConstraintViolation.mk "Properties.AgentPoolProfiles[2].Count" (GoValue.vint 200))
      []).2.1 (by decide) (by decide)).2.1 (by decide) (by decide)

/-- C2 counterexample: the namespace
`Properties.AgentPoolProfiles[0].MaxVMSize` ends with none of the suffixes
the claim lists (in particular not with `.VMSize`) and is not in the fixed
set, so the claim predicts the catch-all diagnostic carrying the violation
set; the code instead returns "missing `<namespace>`", because it tests
the `VMSize` suffix without a leading dot. -/
theorem handleValidationErrors_dotless_vmsize_counterexample :
    handleValidationErrors
        [ConstraintViolation.mk "Properties.AgentPoolProfiles[0].MaxVMSize" GoValue.vother]
        = GoResult.err "missing Properties.AgentPoolProfiles[0].MaxVMSize"
    ∧ goHasSuffix "Properties.AgentPoolProfiles[0].MaxVMSize" ".VMSize" = false
    ∧ goHasSuffix "Properties.AgentPoolProfiles[0].MaxVMSize" ".Name" = false
    ∧ goHasSuffix "Properties.AgentPoolProfiles[0].MaxVMSize" ".Count" = false
    ∧ goHasSuffix "Properties.AgentPoolProfiles[0].MaxVMSize" ".OSDiskSizeGB" = false
    ∧ goHasSuffix "Properties.AgentPoolProfiles[0].MaxVMSize" ".StorageProfile" = false
    ∧ "Properties.AgentPoolProfiles[0].MaxVMSize" ∉ fixedNamespaces
    ∧ ¬ ((renderViolations
          [ConstraintViolation.mk "Properties.AgentPoolProfiles[0].MaxVMSize" GoValue.vother]).data
        <:+: ("missing Properties.AgentPoolProfiles[0].MaxVMSize").data) := by
  refine ⟨by decide, by decide, by decide, by decide, by decide, by decide, by decide, by decide⟩
